import Mathlib

/-!
Verification of the conversational-analysis transcript editor
(`conversational_analysis_editor.py`).

Strings are embedded as `List Char`; each Python method of `Editor` is
translated into a pure Lean function over an explicit editor state.  File
writes (save, autosave) are recorded as traces of written contents.
-/

set_option maxRecDepth 10000

namespace ConvEd

/-- `DialogueEntry`: a (speaker, text) record. -/
structure Entry where
  speaker : List Char
  text : List Char
deriving DecidableEq, Repr

instance : Inhabited Entry := ⟨⟨[], []⟩⟩

/-! ## Reflow engine: `Editor.wrap_text` -/

/-- Python `segment.rfind(" ")`: index of the last space of the list,
`none` when there is no space (Python returns `-1`). -/
def rfindSpace : List Char → Option Nat
  | [] => none
  | c :: rest =>
    match rfindSpace rest with
    | some i => some (i + 1)
    | none => if c = ' ' then some 0 else none

/-- The body of the `while start < len(text)` loop of `Editor.wrap_text`.
`fuel` bounds the number of iterations; `wrap_text` supplies `text.length`,
which is enough whenever the effective width is at least 1 (each iteration
advances `start` by at least 1).  For width 0 the Python loop does not
terminate, a case no caller can produce. -/
def wrapGo (text : List Char) (maxWidth : Nat) : Nat → Nat → List (Nat × List Char)
  | 0, _ => []
  | fuel + 1, start =>
    if start < text.length then
      if text.length - start ≤ maxWidth then
        [(start, text.drop start)]
      else
        match rfindSpace ((text.drop start).take (maxWidth + 1)) with
        | none => (start, (text.drop start).take maxWidth) ::
            wrapGo text maxWidth fuel (start + maxWidth)
        | some 0 => (start, (text.drop start).take maxWidth) ::
            wrapGo text maxWidth fuel (start + maxWidth)
        | some (bi + 1) => (start, (text.drop start).take (bi + 1)) ::
            wrapGo text maxWidth fuel (start + bi + 2)
    else []

/-- `Editor.wrap_text(text, width)`: wrap into `(start_offset, substring)`
pairs, with effective maximum width `min width 50`. -/
def wrap_text (text : List Char) (width : Nat) : List (Nat × List Char) :=
  wrapGo text (min width 50) text.length 0

/-- The per-record segment list used by `Editor.reflow`: the wrapped lines,
replaced by `[(0, "")]` when `wrap_text` returns the empty list. -/
def wrapSegments (text : List Char) (width : Nat) : List (Nat × List Char) :=
  match wrap_text text width with
  | [] => [(0, [])]
  | l => l

/-! ## Auto-merge pass: `Editor.combine_same_speaker_entries` -/

/-- Python `current.text and current.text[-1] not in '.!?,:;'` is false,
i.e. the text is empty or ends in one of the punctuation characters. -/
def endsWithPunct (a : List Char) : Bool :=
  match a.getLast? with
  | none => false
  | some c => ['.', '!', '?', ',', ':', ';'].contains c

/-- The merged text of two entries: a separating space is appended first
unless the left text is empty or already ends in punctuation. -/
def mergedText (a b : List Char) : List Char :=
  (if a ≠ [] ∧ endsWithPunct a = false then a ++ [' '] else a) ++ b

/-- The speaker/bracket guard of `combine_same_speaker_entries`. -/
def sameSpeakerNoBrackets (a b : Entry) : Bool :=
  a.speaker == b.speaker &&
  !a.text.contains '[' && !a.text.contains ']' &&
  !b.text.contains '[' && !b.text.contains ']'

/-- The body of the while loop of `combine_same_speaker_entries`,
structurally recursive on `fuel`.  Finalizing the head corresponds to
`i += 1`; merging shortens the list and re-examines the same position
(`continue`).  Both steps shorten the remaining list by exactly one, so
`fuel = length` is always exact and the `fuel = 0` fallback is dead. -/
def combineGo : Nat → List Entry → List Entry
  | 0, l => l
  | fuel + 1, l =>
    match l with
    | [] => []
    | [a] => [a]
    | a :: b :: rest =>
      if sameSpeakerNoBrackets a b then
        if a.text.length + 1 + b.text.length ≤ 150 then
          combineGo fuel (⟨a.speaker, mergedText a.text b.text⟩ :: rest)
        else
          a :: combineGo fuel (b :: rest)
      else
        a :: combineGo fuel (b :: rest)

/-- `Editor.combine_same_speaker_entries`: the load-time auto-merge pass. -/
def combine_same_speaker_entries (l : List Entry) : List Entry :=
  combineGo l.length l

/-! ## File format: `Editor.save_file` / `Editor.load_file` -/

/-- The bytes `Editor.save_file` (and `Editor.autosave`) write:
one `speaker<TAB>text<NL>` line per entry. -/
def save_file_content (l : List Entry) : List Char :=
  (l.map (fun e => e.speaker ++ '\t' :: (e.text ++ ['\n']))).flatten

/-- Python `line.split("\t", 1)`: split at the first tab, `none` when the
line has no tab. -/
def splitFirstTab : List Char → Option (List Char × List Char)
  | [] => none
  | c :: rest =>
    if c = '\t' then some ([], rest)
    else
      match splitFirstTab rest with
      | some (a, b) => some (c :: a, b)
      | none => none

/-- One parsed line of `Editor.load_file`: `speaker<TAB>text`, or a record
with empty text when the line has no tab. -/
def parseLine (line : List Char) : Entry :=
  match splitFirstTab line with
  | some (sp, tx) => ⟨sp, tx⟩
  | none => ⟨line, []⟩

/-- Python file-line iteration followed by `rstrip("\n")`: the content is
cut at every newline, a trailing newline producing no extra empty line. -/
def splitLines : List Char → List (List Char)
  | [] => []
  | c :: rest =>
    if c = '\n' then [] :: splitLines rest
    else
      match splitLines rest with
      | [] => [[c]]
      | l :: ls => (c :: l) :: ls

/-- `Editor.load_file`: parse every line of the file into an entry. -/
def load_file (content : List Char) : List Entry :=
  (splitLines content).map parseLine

/-- Loading a file as a session start does: `load_file`, then the initial
`reflow` runs `combine_same_speaker_entries` (the `initial_load` flag). -/
def sessionLoad (content : List Char) : List Entry :=
  combine_same_speaker_entries (load_file content)

/-! ## Properties of the auto-merge pass -/

/-- The full merge condition of one step of the pass: guard plus the
150-character cap. -/
def mergeCond (a b : Entry) : Bool :=
  sameSpeakerNoBrackets a b && decide (a.text.length + 1 + b.text.length ≤ 150)

/-- A list is normalized when no adjacent pair satisfies the merge
condition. -/
def normalizedB : List Entry → Bool
  | a :: b :: rest => !mergeCond a b && normalizedB (b :: rest)
  | _ => true

theorem combine_cons_cons (a b : Entry) (rest : List Entry) :
    combine_same_speaker_entries (a :: b :: rest) =
      if mergeCond a b then
        combine_same_speaker_entries (⟨a.speaker, mergedText a.text b.text⟩ :: rest)
      else
        a :: combine_same_speaker_entries (b :: rest) := by
  show combineGo (rest.length + 1 + 1) (a :: b :: rest) = _
  rw [combineGo, mergeCond]
  rcases h : sameSpeakerNoBrackets a b with _ | _ <;>
    simp [h, combine_same_speaker_entries]

theorem combine_of_normalized :
    ∀ l : List Entry, normalizedB l = true → combine_same_speaker_entries l = l
  | [], _ => rfl
  | [_], _ => rfl
  | a :: b :: rest, h => by
    rw [normalizedB, Bool.and_eq_true, Bool.not_eq_true'] at h
    rw [combine_cons_cons, if_neg (by simp [h.1]),
      combine_of_normalized (b :: rest) h.2]

theorem mergedText_length (a b : List Char) :
    a.length + b.length ≤ (mergedText a b).length := by
  unfold mergedText
  split <;> simp

/-- The head of the output of the pass started at `b`: same speaker as
`b`, text at least as long, and unchanged whenever `b`'s text contains a
bracket. -/
theorem combine_head :
    ∀ (l : List Entry) (b : Entry), ∃ b' tl,
      combine_same_speaker_entries (b :: l) = b' :: tl ∧
      b'.speaker = b.speaker ∧
      b.text.length ≤ b'.text.length ∧
      (('[' ∈ b.text ∨ ']' ∈ b.text) → b' = b)
  | [], b => ⟨b, [], rfl, rfl, Nat.le_refl _, fun _ => rfl⟩
  | c :: rest, b => by
    rw [combine_cons_cons]
    by_cases h : mergeCond b c = true
    · rw [if_pos h]
      obtain ⟨b', tl, heq, hsp, hlen, _⟩ :=
        combine_head rest ⟨b.speaker, mergedText b.text c.text⟩
      refine ⟨b', tl, heq, hsp, ?_, ?_⟩
      · exact le_trans (le_trans (Nat.le_add_right _ _)
          (mergedText_length b.text c.text)) hlen
      · intro hbr
        exfalso
        simp only [mergeCond, sameSpeakerNoBrackets] at h
        simp at h
        rcases hbr with hbr | hbr <;> exact absurd hbr (by tauto)
    · rw [if_neg h]
      exact ⟨b, _, rfl, rfl, Nat.le_refl _, fun _ => rfl⟩

theorem mergeCond_of_head {a b b' : Entry}
    (hsp : b'.speaker = b.speaker) (hlen : b.text.length ≤ b'.text.length)
    (hbr : ('[' ∈ b.text ∨ ']' ∈ b.text) → b' = b)
    (h : mergeCond a b' = true) : mergeCond a b = true := by
  by_cases hb : '[' ∈ b.text ∨ ']' ∈ b.text
  · rw [hbr hb] at h; exact h
  · push_neg at hb
    simp only [mergeCond, sameSpeakerNoBrackets] at h ⊢
    simp at h ⊢
    obtain ⟨⟨⟨⟨⟨h1, h2⟩, h3⟩, h4⟩, h5⟩, h6⟩ := h
    refine ⟨⟨⟨⟨⟨?_, h2⟩, h3⟩, hb.1⟩, hb.2⟩, by omega⟩
    rw [h1, hsp]

/-- Transcription of the specification's merge condition (§4.1): speakers
equal, neither text contains a square bracket, and the combined length is
within 150. -/
def descrCanMerge (a b : Entry) : Bool :=
  decide (a.speaker = b.speaker ∧
    '[' ∉ a.text ∧ ']' ∉ a.text ∧ '[' ∉ b.text ∧ ']' ∉ b.text ∧
    a.text.length + 1 + b.text.length ≤ 150)

/-- Transcription of the specification's merge action, with the
punctuation set amended to `. ! ? , : ;`: append a single space iff the
left text is non-empty and its last character is not one of those, then
append the right text. -/
def descrMerged (a b : Entry) : Entry :=
  if a.text ≠ [] ∧
      a.text.getLast? ∉ [some '.', some '!', some '?', some ',', some ':', some ';'] then
    ⟨a.speaker, a.text ++ ' ' :: b.text⟩
  else
    ⟨a.speaker, a.text ++ b.text⟩

/-- Transcription of the specification's scan: left to right, merging
re-examines the same position before advancing. -/
def autoMergeDescr : List Entry → List Entry
  | [] => []
  | [a] => [a]
  | a :: b :: rest =>
    if descrCanMerge a b then autoMergeDescr (descrMerged a b :: rest)
    else a :: autoMergeDescr (b :: rest)
termination_by l => l.length

theorem descrCanMerge_eq (a b : Entry) : descrCanMerge a b = mergeCond a b := by
  rw [Bool.eq_iff_iff]
  simp [descrCanMerge, mergeCond, sameSpeakerNoBrackets]
  tauto

theorem descrMerged_eq (a b : Entry) :
    descrMerged a b = ⟨a.speaker, mergedText a.text b.text⟩ := by
  unfold descrMerged mergedText endsWithPunct
  rcases h : a.text.getLast? with _ | c
  · have hnil : a.text = [] := by
      cases ht : a.text with
      | nil => rfl
      | cons x xs => rw [ht] at h; simp [List.getLast?_eq_getLast] at h
    simp [hnil]
  · have hne : a.text ≠ [] := by
      intro he; rw [he] at h; simp at h
    by_cases hc : c ∈ ['.', '!', '?', ',', ':', ';']
    · fin_cases hc <;> simp
    · simp only [List.mem_cons, List.not_mem_nil, or_false, not_or] at hc
      obtain ⟨h1, h2, h3, h4, h5, h6⟩ := hc
      rw [if_pos ⟨hne, by simp [h1, h2, h3, h4, h5, h6]⟩,
        if_pos ⟨hne, by simp [h1, h2, h3, h4, h5, h6]⟩]
      simp

/-- The output of the auto-merge pass is normalized: every adjacent pair
of the result fails the merge condition. -/
theorem combine_normalized (l : List Entry) :
    normalizedB (combine_same_speaker_entries l) = true := by
  generalize hn : l.length = n
  induction n using Nat.strong_induction_on generalizing l with
  | _ n ih =>
    match l, hn with
    | [], _ => rfl
    | [_], _ => rfl
    | a :: b :: rest, hn =>
      rw [combine_cons_cons]
      by_cases h : mergeCond a b = true
      · rw [if_pos h]
        exact ih _ (by simp [← hn]) _ rfl
      · rw [if_neg h]
        obtain ⟨b', tl, heq, hsp, hlen, hbr⟩ := combine_head rest b
        rw [heq, normalizedB, Bool.and_eq_true, Bool.not_eq_true']
        refine ⟨?_, by rw [← heq]; exact ih _ (by simp [← hn]) _ rfl⟩
        exact Bool.eq_false_iff.mpr
          (fun hc => h (mergeCond_of_head hsp hlen hbr hc))

/-! ## Claim theorems for the auto-merge pass and empty wrap -/

/-- C5 counterexample: the claim's punctuation set omits `?`.  On the pair
("A", "Hi?"), ("A", "x") the code merges without inserting a space
(`?` is in the code's set `.!?,:;`), while the claim, whose set is
`. ! , : ;`, predicts the text "Hi? x". -/
theorem auto_merge_question_mark_cex :
    combine_same_speaker_entries
        [⟨"A".toList, "Hi?".toList⟩, ⟨"A".toList, "x".toList⟩]
      = [⟨"A".toList, "Hi?x".toList⟩] ∧
    ("Hi?x".toList : List Char) ≠ "Hi? x".toList := by
  constructor
  · rfl
  · decide

/-- C5 (amended: the punctuation set is `. ! ? , : ;`): the auto-merge
pass coincides with the specification's description — it merges an
adjacent pair exactly under `descrCanMerge`, merges via `descrMerged`,
re-examines the same position after a merge, and otherwise advances. -/
theorem auto_merge_matches_description (l : List Entry) :
    combine_same_speaker_entries l = autoMergeDescr l := by
  generalize hn : l.length = n
  induction n using Nat.strong_induction_on generalizing l with
  | _ n ih =>
    match l, hn with
    | [], _ => simp [combine_same_speaker_entries, combineGo, autoMergeDescr]
    | [_], _ => simp [combine_same_speaker_entries, combineGo, autoMergeDescr]
    | a :: b :: rest, hn =>
      rw [combine_cons_cons, autoMergeDescr, descrCanMerge_eq, descrMerged_eq]
      by_cases h : mergeCond a b = true
      · rw [if_pos h, if_pos h]
        exact ih _ (by simp [← hn]) _ rfl
      · rw [if_neg h, if_neg h, ih _ (by simp [← hn]) (b :: rest) rfl]

/-- C7: the auto-merge pass is idempotent — running it on its own output
changes nothing. -/
theorem auto_merge_idempotent (l : List Entry) :
    combine_same_speaker_entries (combine_same_speaker_entries l) =
      combine_same_speaker_entries l :=
  combine_of_normalized _ (combine_normalized l)

/-- C6: for every width `w ≥ 1`, the reflow engine's wrap of the empty
text yields exactly the single segment `(0, "")` (the `wrap_text` loop
emits nothing and `reflow` substitutes the empty segment). -/
theorem wrap_empty_segment (w : Nat) (_hw : 1 ≤ w) :
    wrapSegments [] w = [(0, [])] := rfl

/-- Witness for C6 at width 5. -/
theorem wrap_empty_segment_witness :
    1 ≤ 5 ∧ wrapSegments [] 5 = [(0, [])] :=
  ⟨by decide, wrap_empty_segment 5 (by decide)⟩

/-! ## The wrap invariant (ordering, coverage, reconstruction) -/

/-- A wrap segment is a non-empty substring of the text at its offset. -/
def isSegmentOf (text : List Char) (p : Nat × List Char) : Prop :=
  p.2 ≠ [] ∧ p.2 = (text.drop p.1).take p.2.length

/-- The chain condition along a segment list: each following segment
starts where the previous one ends, or one position later with a space of
the text consumed there; the final segment ends at the end of the text,
or one position short of it with a trailing space consumed. -/
def chainFrom (text : List Char) : Nat × List Char → List (Nat × List Char) → Prop
  | (s, t), [] =>
      s + t.length = text.length ∨
      (s + t.length + 1 = text.length ∧ text[s + t.length]? = some ' ')
  | (s, t), (s₂, t₂) :: rest =>
      (s₂ = s + t.length ∨
        (s₂ = s + t.length + 1 ∧ text[s + t.length]? = some ' ')) ∧
      chainFrom text (s₂, t₂) rest

/-- Concatenation of the segment texts, reinserting exactly one space at
each break that consumed a separating space (recognized by the gap of one
between consecutive offsets). -/
def joinWrap : List (Nat × List Char) → List Char
  | [] => []
  | [(_, t)] => t
  | (s₁, t₁) :: (s₂, t₂) :: rest =>
      t₁ ++ (if s₂ = s₁ + t₁.length + 1 then [' '] else []) ++
        joinWrap ((s₂, t₂) :: rest)

/-- End position of the last segment. -/
def lastEnd : List (Nat × List Char) → Nat
  | [] => 0
  | [(s, t)] => s + t.length
  | _ :: rest => lastEnd rest

theorem rfindSpace_get (l : List Char) :
    ∀ i, rfindSpace l = some i → i < l.length ∧ l[i]? = some ' ' := by
  induction l with
  | nil => intro i h; simp [rfindSpace] at h
  | cons c rest ih =>
    intro i h
    rw [rfindSpace] at h
    cases hr : rfindSpace rest with
    | some j =>
      rw [hr] at h
      obtain rfl : j + 1 = i := by injection h
      obtain ⟨hj, hget⟩ := ih j hr
      exact ⟨by simpa using hj, by simpa using hget⟩
    | none =>
      rw [hr] at h
      by_cases hc : c = ' '
      · rw [if_pos hc] at h
        obtain rfl : (0 : Nat) = i := by injection h
        simp [hc]
      · rw [if_neg hc] at h
        exact absurd h (by simp)

theorem wrapGo_stop (text : List Char) (mw fuel start : Nat)
    (h : ¬ start < text.length) : wrapGo text mw fuel start = [] := by
  cases fuel <;> simp [wrapGo, h]

/-- Structure of the wrap loop's output from position `start`: it begins
with a segment at `start` and satisfies the chain/substring conditions. -/
theorem wrapGo_spec (text : List Char) (mw : Nat) (hmw : 1 ≤ mw) :
    ∀ fuel start, start < text.length → text.length - start ≤ fuel →
      ∃ t rest, wrapGo text mw fuel start = (start, t) :: rest ∧
        isSegmentOf text (start, t) ∧ (∀ p ∈ rest, isSegmentOf text p) ∧
        chainFrom text (start, t) rest := by
  intro fuel
  induction fuel with
  | zero => intro start h1 h2; omega
  | succ fuel ih =>
    intro start h1 h2
    rw [wrapGo, if_pos h1]
    by_cases hrem : text.length - start ≤ mw
    · rw [if_pos hrem]
      refine ⟨text.drop start, [], rfl, ⟨?_, ?_⟩, by simp, Or.inl ?_⟩
      · intro he
        have := congrArg List.length he
        simp [List.length_drop] at this
        omega
      · show text.drop start = (text.drop start).take (text.drop start).length
        exact (List.take_length _).symm
      · simp [List.length_drop]
        omega
    · rw [if_neg hrem]
      have hseglen : ((text.drop start).take (mw + 1)).length = mw + 1 := by
        simp [List.length_take, List.length_drop]
        omega
      have hsegof : ∀ n, 1 ≤ n → n ≤ text.length - start →
          isSegmentOf text (start, (text.drop start).take n) := by
        intro n hn1 hn2
        have hlen : ((text.drop start).take n).length = n := by
          simp [List.length_take, List.length_drop]
          omega
        constructor
        · intro he
          have he' : List.take n (List.drop start text) = [] := he
          rw [he'] at hlen
          simp at hlen
          omega
        · show (text.drop start).take n =
            (text.drop start).take ((text.drop start).take n).length
          rw [hlen]
      have hard :
          ∃ t rest,
            ((start, (text.drop start).take mw) ::
              wrapGo text mw fuel (start + mw)) = (start, t) :: rest ∧
            isSegmentOf text (start, t) ∧ (∀ p ∈ rest, isSegmentOf text p) ∧
            chainFrom text (start, t) rest := by
        have htlen : ((text.drop start).take mw).length = mw := by
          simp [List.length_take, List.length_drop]
          omega
        obtain ⟨t', rest', heq, hseg, hrest, hchain⟩ :=
          ih (start + mw) (by omega) (by omega)
        refine ⟨(text.drop start).take mw, (start + mw, t') :: rest', by rw [heq],
          hsegof mw hmw (by omega), ?_, ?_⟩
        · intro p hp
          rcases List.mem_cons.mp hp with rfl | hp
          · exact hseg
          · exact hrest p hp
        · exact ⟨Or.inl (by rw [htlen]), hchain⟩
      cases hfind : rfindSpace ((text.drop start).take (mw + 1)) with
      | none => exact hard
      | some bi =>
        cases bi with
        | zero => exact hard
        | succ bi =>
          dsimp only
          obtain ⟨hlt, hsp⟩ := rfindSpace_get _ _ hfind
          rw [hseglen] at hlt
          have hsp' : text[start + (bi + 1)]? = some ' ' := by
            rw [List.getElem?_take, if_pos hlt, List.getElem?_drop] at hsp
            exact hsp
          have htlen : ((text.drop start).take (bi + 1)).length = bi + 1 := by
            simp [List.length_take, List.length_drop]
            omega
          by_cases hend : start + bi + 2 < text.length
          · obtain ⟨t', rest', heq, hseg, hrest, hchain⟩ :=
              ih (start + bi + 2) hend (by omega)
            refine ⟨(text.drop start).take (bi + 1),
              (start + bi + 2, t') :: rest', by rw [heq],
              hsegof (bi + 1) (by omega) (by omega), ?_, ?_⟩
            · intro p hp
              rcases List.mem_cons.mp hp with rfl | hp
              · exact hseg
              · exact hrest p hp
            · refine ⟨Or.inr ⟨by rw [htlen]; omega, ?_⟩, hchain⟩
              rw [htlen]
              exact hsp'
          · have hstop : start + bi + 2 = text.length := by omega
            rw [wrapGo_stop text mw fuel (start + bi + 2) (by omega)]
            refine ⟨(text.drop start).take (bi + 1), [], rfl,
              hsegof (bi + 1) (by omega) (by omega), by simp,
              Or.inr ⟨by rw [htlen]; omega, ?_⟩⟩
            rw [htlen]
            exact hsp'

theorem chainFrom_lastEnd (text : List Char) :
    ∀ (rest : List (Nat × List Char)) (s : Nat) (t : List Char),
      chainFrom text (s, t) rest → text.getLast? ≠ some ' ' →
      lastEnd ((s, t) :: rest) = text.length := by
  intro rest
  induction rest with
  | nil =>
    intro s t hc hl
    rcases hc with h | ⟨h1, h2⟩
    · exact h
    · exfalso
      apply hl
      rw [List.getLast?_eq_getElem?, show text.length - 1 = s + t.length by omega]
      exact h2
  | cons p rest' ih =>
    rcases p with ⟨s₂, t₂⟩
    intro s t hc hl
    obtain ⟨_, hc'⟩ := hc
    exact ih s₂ t₂ hc' hl

theorem chainFrom_join (text : List Char) :
    ∀ (rest : List (Nat × List Char)) (s : Nat) (t : List Char),
      chainFrom text (s, t) rest → isSegmentOf text (s, t) →
      (∀ p ∈ rest, isSegmentOf text p) → text.getLast? ≠ some ' ' →
      joinWrap ((s, t) :: rest) = text.drop s := by
  intro rest
  induction rest with
  | nil =>
    intro s t hc hseg _ hl
    show t = text.drop s
    rcases hc with h | ⟨h1, h2⟩
    · obtain ⟨_, hsub⟩ := hseg
      replace hsub : t = (text.drop s).take t.length := hsub
      rw [hsub]
      show (text.drop s).take t.length = text.drop s
      have hlen : t.length = (text.drop s).length := by
        rw [List.length_drop]; omega
      rw [hlen, List.take_length]
    · exfalso
      apply hl
      rw [List.getLast?_eq_getElem?, show text.length - 1 = s + t.length by omega]
      exact h2
  | cons p rest' ih =>
    rcases p with ⟨s₂, t₂⟩
    intro s t hc hseg hrest hl
    obtain ⟨hlink, hc'⟩ := hc
    obtain ⟨htne, hsub⟩ := hseg
    replace hsub : t = (text.drop s).take t.length := hsub
    have hj : joinWrap ((s, t) :: (s₂, t₂) :: rest') =
        t ++ (if s₂ = s + t.length + 1 then [' '] else []) ++
          joinWrap ((s₂, t₂) :: rest') := rfl
    rw [hj, ih s₂ t₂ hc' (hrest _ (by simp))
      (fun p hp => hrest p (by simp [hp])) hl]
    rcases hlink with h | ⟨h1, h2⟩
    · have hd : text.drop s = t ++ text.drop (s + t.length) := by
        conv_lhs => rw [← List.take_append_drop t.length (text.drop s)]
        rw [List.drop_drop, ← hsub]
      rw [if_neg (by omega), h, hd]
      simp
    · have hlt : s + t.length < text.length := by
        by_contra h'
        rw [List.getElem?_eq_none (by omega)] at h2
        exact absurd h2 (by simp)
      have hdrop : text.drop (s + t.length) = ' ' :: text.drop (s + t.length + 1) := by
        rw [List.drop_eq_getElem_cons hlt]
        have h2' := h2
        rw [List.getElem?_eq_getElem hlt] at h2'
        have : text[s + t.length] = ' ' := by injection h2'
        rw [this]
      have hd : text.drop s = t ++ (' ' :: text.drop (s + t.length + 1)) := by
        conv_lhs => rw [← List.take_append_drop t.length (text.drop s)]
        rw [List.drop_drop, hdrop, ← hsub]
      rw [if_pos h1, h1, hd]
      simp

theorem chainFrom_chain' (text : List Char) :
    ∀ (rest : List (Nat × List Char)) (s : Nat) (t : List Char),
      chainFrom text (s, t) rest →
      (∀ p ∈ (s, t) :: rest, isSegmentOf text p) →
      List.Chain' (fun a b : Nat × List Char => a.1 < b.1) ((s, t) :: rest) := by
  intro rest
  induction rest with
  | nil => intro s t _ _; simp
  | cons p rest' ih =>
    rcases p with ⟨s₂, t₂⟩
    intro s t hc hall
    obtain ⟨hlink, hc'⟩ := hc
    rw [List.chain'_cons]
    constructor
    · have htne := (hall (s, t) (by simp)).1
      have hpos : 1 ≤ t.length := List.length_pos.mpr htne
      show s < s₂
      rcases hlink with h | ⟨h, _⟩ <;> omega
    · exact ih s₂ t₂ hc' (fun p hp => hall p (by simp [hp]))

/-- C1 (amended: the text does not end in a space, and the width is at
least 1): the segment list of `wrap` is strictly ordered by start offset,
covers `[0, len text]` with gaps only at consumed separating spaces, ends
at `len text`, and concatenating the segment texts with one space
reinserted at each consumed break reproduces the text exactly. -/
theorem wrap_segments_invariant (text : List Char) (width : Nat)
    (hw : 1 ≤ width) (hl : text.getLast? ≠ some ' ') :
    ∃ t rest, wrapSegments text width = (0, t) :: rest ∧
      List.Chain' (fun a b : Nat × List Char => a.1 < b.1) ((0, t) :: rest) ∧
      chainFrom text (0, t) rest ∧
      lastEnd ((0, t) :: rest) = text.length ∧
      joinWrap ((0, t) :: rest) = text := by
  by_cases hnil : text = []
  · subst hnil
    exact ⟨[], [], rfl, by simp, Or.inl rfl, rfl, rfl⟩
  · have hpos : 0 < text.length := List.length_pos.mpr hnil
    have hmw : 1 ≤ min width 50 := by omega
    obtain ⟨t, rest, heq, hseg, hrest, hchain⟩ :=
      wrapGo_spec text (min width 50) hmw text.length 0 hpos (by omega)
    have hws : wrapSegments text width = (0, t) :: rest := by
      rw [wrapSegments, wrap_text, heq]
    refine ⟨t, rest, hws, ?_, hchain, ?_, ?_⟩
    · exact chainFrom_chain' text rest 0 t hchain (fun p hp => by
        rcases List.mem_cons.mp hp with rfl | hp
        · exact hseg
        · exact hrest p hp)
    · exact chainFrom_lastEnd text rest 0 t hchain hl
    · have hjoin := chainFrom_join text rest 0 t hchain hseg hrest hl
      rw [List.drop_zero] at hjoin
      exact hjoin

/-- Witness for C1 on the specification's own example, `"Hello there"`
wrapped at width 10. -/
theorem wrap_segments_invariant_witness :
    ∃ t rest, wrapSegments "Hello there".toList 10 = (0, t) :: rest ∧
      List.Chain' (fun a b : Nat × List Char => a.1 < b.1) ((0, t) :: rest) ∧
      chainFrom "Hello there".toList (0, t) rest ∧
      lastEnd ((0, t) :: rest) = "Hello there".toList.length ∧
      joinWrap ((0, t) :: rest) = "Hello there".toList :=
  wrap_segments_invariant "Hello there".toList 10 (by decide) (by decide)

/-- C1 counterexample: on the text `"a "` at width 1 the final break
consumes the trailing space and emits no further segment, so the segment
list is `[(0, "a")]` — it does not cover offset 2 and reconstruction
yields `"a"`, not `"a "`. -/
theorem wrap_trailing_space_cex :
    joinWrap (wrapSegments ['a', ' '] 1) ≠ ['a', ' '] := by decide

/-! ## Round trip of save / session load / save -/

/-- The claim's hypothesis on a record: neither field contains an embedded
tab or newline. -/
def cleanEntry (e : Entry) : Prop :=
  '\t' ∉ e.speaker ∧ '\n' ∉ e.speaker ∧ '\t' ∉ e.text ∧ '\n' ∉ e.text

instance (e : Entry) : Decidable (cleanEntry e) := by
  unfold cleanEntry; infer_instance

theorem splitFirstTab_append (sp tx : List Char) (h : '\t' ∉ sp) :
    splitFirstTab (sp ++ '\t' :: tx) = some (sp, tx) := by
  induction sp with
  | nil => rfl
  | cons c rest ih =>
    rw [List.mem_cons, not_or] at h
    rw [List.cons_append, splitFirstTab, if_neg (fun hc => h.1 hc.symm),
      ih h.2]

theorem splitLines_append (l rest : List Char) (h : '\n' ∉ l) :
    splitLines (l ++ '\n' :: rest) = l :: splitLines rest := by
  induction l with
  | nil => rfl
  | cons c tl ih =>
    rw [List.mem_cons, not_or] at h
    rw [List.cons_append, splitLines, if_neg (fun hc => h.1 hc.symm),
      ih h.2]

/-- Loading the saved bytes of a clean record list restores it exactly. -/
theorem load_of_save (l : List Entry) (h : ∀ e ∈ l, cleanEntry e) :
    load_file (save_file_content l) = l := by
  induction l with
  | nil => rfl
  | cons e tl ih =>
    obtain ⟨h1, h2, _, h4⟩ := h e (List.mem_cons_self e tl)
    have hline : '\n' ∉ e.speaker ++ '\t' :: e.text := by
      simp [h2, h4]
    have harr : save_file_content (e :: tl) =
        (e.speaker ++ '\t' :: e.text) ++ '\n' :: save_file_content tl := by
      simp [save_file_content]
    rw [load_file, harr, splitLines_append _ _ hline, List.map_cons]
    rw [show parseLine (e.speaker ++ '\t' :: e.text) = e by
      rw [parseLine, splitFirstTab_append _ _ h1]]
    rw [← load_file, ih (fun x hx => h x (List.mem_cons_of_mem e hx))]

/-- C3 counterexample: the session load runs the auto-merge pass, so a
mergeable pair of records does not survive the round trip even though its
fields contain no tabs or newlines. -/
theorem save_reload_save_cex :
    (∀ e ∈ ([⟨"A".toList, "x".toList⟩, ⟨"A".toList, "x".toList⟩] : List Entry),
      cleanEntry e) ∧
    save_file_content (sessionLoad (save_file_content
        [⟨"A".toList, "x".toList⟩, ⟨"A".toList, "x".toList⟩]))
      ≠ save_file_content [⟨"A".toList, "x".toList⟩, ⟨"A".toList, "x".toList⟩] := by
  constructor
  · decide
  · intro hcontra
    exact absurd hcontra (by decide)

/-- C3 (amended: additionally, the record list is a fixed point of the
auto-merge pass): saving, reloading as a session load does, and saving
again is byte-identical to the first save. -/
theorem save_reload_save_identical (l : List Entry)
    (hclean : ∀ e ∈ l, cleanEntry e) (hnorm : normalizedB l = true) :
    save_file_content (sessionLoad (save_file_content l)) =
      save_file_content l := by
  rw [sessionLoad, load_of_save l hclean, combine_of_normalized l hnorm]

/-- Witness for C3 on a two-record list that the auto-merge pass leaves
alone. -/
theorem save_reload_save_identical_witness :
    save_file_content (sessionLoad (save_file_content
        [⟨"A".toList, "x".toList⟩, ⟨"B".toList, "y".toList⟩])) =
      save_file_content [⟨"A".toList, "x".toList⟩, ⟨"B".toList, "y".toList⟩] :=
  save_reload_save_identical _ (by decide) (by decide)

/-! ## Editor state

The mutable fields of the Python `Editor` object.  The terminal is fixed
for a session: `content_width` embeds
`width - (ln_width + sp_width + 2*col_sep)` and `max_visible` embeds
`height - 1`.  File writes are recorded as traces of written contents. -/

inductive Field where
  | speaker
  | content
deriving DecidableEq, Repr

/-- One element of the undo stack: deep copies of the entries plus the
cursor state dictionary of `save_undo_state`. -/
structure Snapshot where
  entries : List Entry
  cursor_display_line : Nat
  cursor_field : Field
  cursor_pos : Nat
  scroll_offset : Nat
deriving DecidableEq, Repr

structure EditorSt where
  entries : List Entry
  display_lines : List (Nat × Nat × List Char)
  cursor_display_line : Nat
  cursor_field : Field
  cursor_pos : Nat
  status_msg : List Char
  scroll_offset : Nat
  keystroke_count : Nat
  undo_stack : List Snapshot
  content_width : Nat
  max_visible : Nat
  filename : Option (List Char)
  autosave_writes : List (List Char)
  file_writes : List (List Char)
deriving DecidableEq, Repr

def autosave_interval : Nat := 10

/-- The display table built by `Editor.reflow`: each entry's wrapped
segments tagged with the entry index. -/
def buildDisplayLines (entries : List Entry) (w : Nat) :
    List (Nat × Nat × List Char) :=
  (entries.enum.map (fun ie =>
    (wrapSegments ie.2.text w).map (fun seg => (ie.1, seg.1, seg.2)))).flatten

/-- `self.display_lines[i]` (always used in range by the Python code). -/
def dlAt (s : EditorSt) (i : Nat) : Nat × Nat × List Char :=
  s.display_lines.getD i (0, 0, [])

/-- `self.display_lines[self.cursor_display_line]`. -/
def curLine (s : EditorSt) : Nat × Nat × List Char :=
  dlAt s s.cursor_display_line

/-- `self.entries[i]` (always used in range by the Python code). -/
def entryAt (s : EditorSt) (i : Nat) : Entry :=
  s.entries.getD i default

/-- `Editor.get_current_field_length`. -/
def get_current_field_length (s : EditorSt) : Nat :=
  match s.cursor_field with
  | Field.speaker => (entryAt s (curLine s).1).speaker.length
  | Field.content => (curLine s).2.2.length

/-- `Editor.reflow` during the session (`initial_load` is false, so the
auto-merge pass does not run): rebuild the display table and clamp the
cursor. -/
def reflow (s : EditorSt) : EditorSt :=
  let dls := buildDisplayLines s.entries s.content_width
  let s₁ :=
    if dls.length ≤ s.cursor_display_line then
      { s with
        display_lines := dls
        cursor_display_line := dls.length - 1
        cursor_pos := 0 }
    else
      { s with display_lines := dls }
  if get_current_field_length s₁ < s₁.cursor_pos then
    { s₁ with cursor_pos := get_current_field_length s₁ }
  else s₁

/-- The snapshot taken by `save_undo_state`. -/
def snapOf (s : EditorSt) : Snapshot :=
  ⟨s.entries, s.cursor_display_line, s.cursor_field, s.cursor_pos,
    s.scroll_offset⟩

/-- Append to the undo stack, evicting the oldest state at the 100 cap. -/
def pushCap (stack : List Snapshot) (x : Snapshot) : List Snapshot :=
  (if 100 ≤ stack.length then stack.drop 1 else stack) ++ [x]

/-- `Editor.save_undo_state`. -/
def save_undo_state (s : EditorSt) : EditorSt :=
  { s with undo_stack := pushCap s.undo_stack (snapOf s) }

/-- `Editor.undo`: pop the top entry, restore from the new top, reflow. -/
def undo (s : EditorSt) : EditorSt :=
  if s.undo_stack.length ≤ 1 then
    { s with status_msg := "Nothing to undo".toList }
  else
    let stack' := s.undo_stack.dropLast
    let snap := stack'.getLastD ⟨[], 0, Field.content, 0, 0⟩
    let s₁ := reflow { s with
      entries := snap.entries,
      cursor_display_line := snap.cursor_display_line,
      cursor_field := snap.cursor_field,
      cursor_pos := snap.cursor_pos,
      scroll_offset := snap.scroll_offset,
      undo_stack := stack' }
    { s₁ with status_msg := "Undo successful".toList }

/-- Index of the last element of `l` satisfying `p`, if any. -/
def lastIdxWith (l : List (Nat × Nat × List Char))
    (p : Nat × Nat × List Char → Bool) : Option Nat :=
  match l.reverse.findIdx? p with
  | some j => some (l.length - 1 - j)
  | none => none

/-- The Python backward scans `for i in range(bound - 1, -1, -1)`:
the last index strictly below `bound` whose line satisfies `p`. -/
def lastIdxBelow (l : List (Nat × Nat × List Char)) (bound : Nat)
    (p : Nat × Nat × List Char → Bool) : Option Nat :=
  lastIdxWith (l.take bound) p

/-- `Editor.set_cursor_for_content`: first line of the entry containing
`target`; fall back to the entry's last line; prefer the leading edge of
a following wrap continuation; no update when the entry has no line. -/
def set_cursor_for_content (s : EditorSt) (entry_idx target : Nat) : EditorSt :=
  let dls := s.display_lines
  let found :=
    match dls.findIdx? (fun x => x.1 == entry_idx &&
        decide (x.2.1 ≤ target) && decide (target ≤ x.2.1 + x.2.2.length)) with
    | some i => some (i, target - (dls.getD i (0, 0, [])).2.1)
    | none =>
      match lastIdxWith dls (fun x => x.1 == entry_idx) with
      | some i => some (i, (dls.getD i (0, 0, [])).2.2.length)
      | none => none
  match found with
  | none => s
  | some (i, pos) =>
    if pos = (dls.getD i (0, 0, [])).2.2.length ∧ i + 1 < dls.length ∧
        (dls.getD (i + 1) (0, 0, [])).1 = entry_idx then
      { s with
        cursor_display_line := i + 1
        cursor_field := Field.content
        cursor_pos := 0 }
    else
      { s with
        cursor_display_line := i
        cursor_field := Field.content
        cursor_pos := pos }

/-! ## Edit operations -/

/-- `Editor.handle_insert`. -/
def handle_insert (s₀ : EditorSt) (c : Char) : EditorSt :=
  let s := save_undo_state s₀
  let ei := (curLine s).1
  let off := (curLine s).2.1
  match s.cursor_field with
  | Field.speaker =>
    let e := entryAt s ei
    let e' := { e with
      speaker := e.speaker.take s.cursor_pos ++ c :: e.speaker.drop s.cursor_pos }
    reflow { s with
      entries := s.entries.set ei e'
      cursor_pos := s.cursor_pos + 1 }
  | Field.content =>
    let e := entryAt s ei
    let oao := off + s.cursor_pos
    let e' := { e with text := e.text.take oao ++ c :: e.text.drop oao }
    let s₁ := reflow { s with entries := s.entries.set ei e' }
    set_cursor_for_content s₁ ei (oao + 1)

/-- The final `if actual_offset > 0` branch of `handle_backspace`
(delete the character before the absolute offset), reached when the
earlier cases do not return. -/
def backspace_delete (s : EditorSt) (ei ao : Nat) : EditorSt :=
  if 0 < ao then
    let e := entryAt s ei
    let s₁ := reflow { s with
      entries := s.entries.set ei
        { e with text := e.text.take (ao - 1) ++ e.text.drop ao } }
    set_cursor_for_content s₁ ei (ao - 1)
  else s

/-- Cases 3 and 4 of `handle_backspace` in the content field: merge into
the previous entry at a true start of record (under the `3 * width` cap),
otherwise fall through to the deletion case. -/
def backspace_content (s : EditorSt) (ei off ao : Nat) : EditorSt :=
  if s.cursor_pos = 0 ∧ off = 0 ∧ 0 < ei ∧
      (entryAt s (ei - 1)).text.length + (entryAt s ei).text.length ≤
        s.content_width * 3 then
    let prev := entryAt s (ei - 1)
    let e := entryAt s ei
    let ptl := prev.text.length
    let s₁ := reflow { s with
      entries := (s.entries.set (ei - 1)
        { prev with text := prev.text ++ e.text }).eraseIdx ei }
    set_cursor_for_content s₁ (ei - 1) ptl
  else
    backspace_delete s ei ao

/-- `Editor.handle_backspace`. -/
def handle_backspace (s₀ : EditorSt) : EditorSt :=
  let s := save_undo_state s₀
  match s.cursor_field with
  | Field.speaker =>
    let ei := (curLine s).1
    let e := entryAt s ei
    let s₁ :=
      if 0 < s.cursor_pos then
        { s with
          entries := s.entries.set ei
            { e with speaker := e.speaker.take (s.cursor_pos - 1) ++
              e.speaker.drop s.cursor_pos }
          cursor_pos := s.cursor_pos - 1 }
      else s
    reflow s₁
  | Field.content =>
    let ei := (curLine s).1
    let off := (curLine s).2.1
    let ao := off + s.cursor_pos
    if s.cursor_pos = 0 ∧ 0 < off then
      match lastIdxBelow s.display_lines s.cursor_display_line
          (fun x => x.1 == ei) with
      | some i =>
        { s with
          cursor_display_line := i
          cursor_pos := (s.display_lines.getD i (0, 0, [])).2.2.length }
      | none => backspace_delete s ei ao
    else
      backspace_content s ei off ao

/-- The split prefix of the move operations: cut the record at the
cursor's continuation offset, inserting the trailing fragment as a new
record after it. -/
def move_split_at (s : EditorSt) (ei0 off : Nat) : EditorSt :=
  let e := entryAt s ei0
  { s with
    entries := (s.entries.set ei0 { e with text := e.text.take off }).insertIdx
      (ei0 + 1) ⟨e.speaker, e.text.drop off⟩ }

/-- The swap-and-relocate tail of `move_entry_up`. -/
def move_swap_up (s : EditorSt) (ei : Nat) : EditorSt :=
  let a := s.entries.getD ei default
  let b := s.entries.getD (ei - 1) default
  let s₁ := reflow { s with entries := (s.entries.set ei b).set (ei - 1) a }
  let s₂ :=
    match s₁.display_lines.findIdx? (fun x => x.1 == ei - 1 && x.2.1 == 0) with
    | some i => { s₁ with cursor_display_line := i }
    | none => s₁
  { s₂ with status_msg := "Moved entry up".toList }

/-- `Editor.move_entry_up`. -/
def move_entry_up (s₀ : EditorSt) : EditorSt :=
  let s := save_undo_state s₀
  let ei0 := (curLine s).1
  let off := (curLine s).2.1
  let s' := if 0 < off then move_split_at s ei0 off else s
  let ei := if 0 < off then ei0 + 1 else ei0
  if ei = 0 then { s' with status_msg := "Already at the top".toList }
  else move_swap_up s' ei

/-- The split prefix of `move_entry_down`, which (unlike `move_entry_up`)
reflows and relocates the cursor right after splitting. -/
def move_down_split (s : EditorSt) (ei0 off : Nat) : EditorSt :=
  let s₁ := reflow (move_split_at s ei0 off)
  match s₁.display_lines.findIdx? (fun x => x.1 == ei0 + 1 && x.2.1 == 0) with
  | some i => { s₁ with cursor_display_line := i }
  | none => s₁

/-- The swap-and-relocate tail of `move_entry_down`. -/
def move_swap_down (s : EditorSt) (ei : Nat) : EditorSt :=
  let a := s.entries.getD ei default
  let b := s.entries.getD (ei + 1) default
  let s₁ := reflow { s with entries := (s.entries.set ei b).set (ei + 1) a }
  let s₂ :=
    match s₁.display_lines.findIdx? (fun x => x.1 == ei + 1 && x.2.1 == 0) with
    | some i => { s₁ with cursor_display_line := i }
    | none => s₁
  { s₂ with status_msg := "Moved entry down".toList }

/-- `Editor.move_entry_down`. -/
def move_entry_down (s₀ : EditorSt) : EditorSt :=
  let s := save_undo_state s₀
  let ei0 := (curLine s).1
  let off := (curLine s).2.1
  let s' := if 0 < off then move_down_split s ei0 off else s
  let ei := if 0 < off then ei0 + 1 else ei0
  if s'.entries.length - 1 ≤ ei then
    { s' with status_msg := "Already at the bottom".toList }
  else move_swap_down s' ei

/-- `Editor.split_line_at_cursor`. -/
def split_line_at_cursor (s : EditorSt) : EditorSt :=
  let ei := (curLine s).1
  let off := (curLine s).2.1
  let ap := off + s.cursor_pos
  if s.cursor_field ≠ Field.content then
    { s with status_msg := "Can only split when cursor is in content".toList }
  else
    let e := entryAt s ei
    let s₁ := reflow { s with
      entries := (s.entries.set ei { e with text := e.text.take ap }).insertIdx
        (ei + 1) ⟨e.speaker, e.text.drop ap⟩ }
    let s₂ :=
      match s₁.display_lines.findIdx? (fun x => x.1 == ei + 1 && x.2.1 == 0) with
      | some i => { s₁ with cursor_display_line := i, cursor_pos := 0 }
      | none => s₁
    { s₂ with
      status_msg := ("Split line at cursor (pos " ++ toString ap ++ ")").toList }

/-! ## File writes, autosave and key processing -/

/-- `Editor.save_file`: the written bytes are recorded in `file_writes`
(write errors are outside the model). -/
def save_file (s : EditorSt) : EditorSt :=
  match s.filename with
  | none => { s with status_msg := "No filename provided.".toList }
  | some _ =>
    { s with
      file_writes := s.file_writes ++ [save_file_content s.entries]
      status_msg := "File saved.".toList }

/-- `os.path.basename` for the simple paths the editor handles: the part
after the last slash. -/
def basename (p : List Char) : List Char :=
  p.foldl (fun acc c => if c = '/' then [] else acc ++ [c]) []

/-- `Editor.get_swap_filename`. -/
def get_swap_filename (s : EditorSt) : List Char :=
  match s.filename with
  | some f => '.' :: (basename f ++ ".swp".toList)
  | none => ".unnamed.swp".toList

/-- `Editor.autosave`: the written bytes are recorded in
`autosave_writes` (write errors are outside the model). -/
def autosave (s : EditorSt) : EditorSt :=
  { s with
    autosave_writes := s.autosave_writes ++ [save_file_content s.entries]
    status_msg := "Autosaved to ".toList ++ get_swap_filename s }

/-- The prologue of `Editor.process_key`: clear the status, count the
keystroke, autosave and reset the counter when the interval is reached. -/
def counterStep (s₀ : EditorSt) : EditorSt :=
  let s := { s₀ with status_msg := [], keystroke_count := s₀.keystroke_count + 1 }
  if autosave_interval ≤ s.keystroke_count then
    { autosave s with keystroke_count := 0 }
  else s

def KEY_DOWN : Nat := 258
def KEY_UP : Nat := 259
def KEY_LEFT : Nat := 260
def KEY_RIGHT : Nat := 261
def KEY_HOME : Nat := 262
def KEY_BACKSPACE : Nat := 263
def KEY_DC : Nat := 330
def KEY_NPAGE : Nat := 338
def KEY_PPAGE : Nat := 339
def KEY_ENTER : Nat := 343
def KEY_END : Nat := 360

/-- The rejected-control-key diagnostic of `process_key`. -/
def key_control_reject (s : EditorSt) (key : Nat) : EditorSt :=
  { s with status_msg :=
    "Control key pressed: ASCII ".toList ++ (toString key).toList }

/-- The `\` shortcut in the speaker field: clear the speaker. -/
def key_clear_speaker (s : EditorSt) : EditorSt :=
  let s₁ := save_undo_state s
  let ei := (curLine s₁).1
  let e := entryAt s₁ ei
  reflow { s₁ with
    entries := s₁.entries.set ei { e with speaker := [] }
    cursor_pos := 0 }

/-- Tab: toggle the active field and reset the column. -/
def key_tab (s : EditorSt) : EditorSt :=
  { s with
    cursor_field :=
      if s.cursor_field = Field.content then Field.speaker else Field.content
    cursor_pos := 0 }

/-- Enter: split the entry, content field only. -/
def key_enter (s : EditorSt) : EditorSt :=
  if s.cursor_field = Field.content then
    split_line_at_cursor (save_undo_state s)
  else s

/-- Arrow up: previous display line, clamp the column, scroll. -/
def key_up_nav (s : EditorSt) : EditorSt :=
  if 0 < s.cursor_display_line then
    let s₁ := { s with cursor_display_line := s.cursor_display_line - 1 }
    let s₂ := { s₁ with cursor_pos := min s₁.cursor_pos (get_current_field_length s₁) }
    if s₂.cursor_display_line < s₂.scroll_offset then
      { s₂ with scroll_offset := s₂.cursor_display_line }
    else s₂
  else s

/-- Arrow down: next display line, clamp the column, scroll. -/
def key_down_nav (s : EditorSt) : EditorSt :=
  if s.cursor_display_line + 1 < s.display_lines.length then
    let s₁ := { s with cursor_display_line := s.cursor_display_line + 1 }
    let s₂ := { s₁ with cursor_pos := min s₁.cursor_pos (get_current_field_length s₁) }
    if s₂.scroll_offset + s₂.max_visible ≤ s₂.cursor_display_line then
      { s₂ with scroll_offset := s₂.cursor_display_line - s₂.max_visible + 1 }
    else s₂
  else s

/-- Arrow left: back a column, or to the end of the previous wrap line of
the same record (content field only, never crossing records). -/
def key_left_nav (s : EditorSt) : EditorSt :=
  if 0 < s.cursor_pos then { s with cursor_pos := s.cursor_pos - 1 }
  else if s.cursor_field = Field.content then
    match lastIdxBelow s.display_lines s.cursor_display_line
        (fun x => x.1 == (curLine s).1) with
    | some i =>
      { s with
        cursor_display_line := i
        cursor_pos := (s.display_lines.getD i (0, 0, [])).2.2.length }
    | none => s
  else s

/-- Arrow right: forward a column, or to column 0 of the next display
line (same or different record). -/
def key_right_nav (s : EditorSt) : EditorSt :=
  if s.cursor_pos < get_current_field_length s then
    { s with cursor_pos := s.cursor_pos + 1 }
  else if s.cursor_field = Field.content ∧
      s.cursor_display_line + 1 < s.display_lines.length then
    let s₁ := { s with cursor_display_line := s.cursor_display_line + 1, cursor_pos := 0 }
    if s₁.scroll_offset + s₁.max_visible ≤ s₁.cursor_display_line then
      { s₁ with scroll_offset := s₁.cursor_display_line - s₁.max_visible + 1 }
    else s₁
  else s

/-- The dispatch part of `Editor.process_key` (after the keystroke
counter).  The boolean result is true when the key quits the session
(the `KeyboardInterrupt` raised for `~` and Ctrl+Q). -/
def dispatchKey (s : EditorSt) (key : Nat) : EditorSt × Bool :=
  if key < 32 ∧ key ≠ 9 ∧ key ≠ 10 then (key_control_reject s key, false)
  else if key = 28 then
    ({ s with status_msg := "Ctrl+\\ pressed (ignored)".toList }, false)
  else if key = 92 ∧ s.cursor_field = Field.speaker then
    (key_clear_speaker s, false)
  else if key = 96 then (save_file s, false)
  else if key = 126 then (s, true)
  else if key = KEY_DC then (undo s, false)
  else if key = KEY_HOME then ({ s with cursor_pos := 0 }, false)
  else if key = KEY_END ∧ s.cursor_field = Field.content then
    ({ s with cursor_pos := get_current_field_length s }, false)
  else if key = KEY_PPAGE then (move_entry_up s, false)
  else if key = KEY_NPAGE then (move_entry_down s, false)
  else if key = 9 then (key_tab s, false)
  else if key = 19 then (save_file s, false)
  else if key = 17 then (s, true)
  else if key = 10 ∨ key = KEY_ENTER then (key_enter s, false)
  else if key = KEY_UP then (key_up_nav s, false)
  else if key = KEY_DOWN then (key_down_nav s, false)
  else if key = KEY_LEFT then (key_left_nav s, false)
  else if key = KEY_RIGHT then (key_right_nav s, false)
  else if key = KEY_BACKSPACE ∨ key = 127 then (handle_backspace s, false)
  else if 32 ≤ key ∧ key ≤ 126 ∧ key ≠ 92 ∧ key ≠ 96 ∧ key ≠ 126 then
    (handle_insert s (Char.ofNat key), false)
  else (s, false)

/-- `Editor.process_key`. -/
def process_key (s : EditorSt) (key : Nat) : EditorSt × Bool :=
  dispatchKey (counterStep s) key

/-- `Editor.__init__` after the entries are in place: the initial reflow
(which runs the auto-merge pass, `initial_load` being true) followed by
the initial undo push. -/
def initEditor (cw mv : Nat) (entries : List Entry)
    (fn : Option (List Char)) : EditorSt :=
  let base : EditorSt := {
    entries := combine_same_speaker_entries entries
    display_lines := []
    cursor_display_line := 0
    cursor_field := Field.content
    cursor_pos := 0
    status_msg := []
    scroll_offset := 0
    keystroke_count := 0
    undo_stack := []
    content_width := cw
    max_visible := mv
    filename := fn
    autosave_writes := []
    file_writes := [] }
  save_undo_state (reflow base)

/-- A session started with no filename on a 30-column content area:
one default entry `("Speaker", "")`. -/
def initState : EditorSt := initEditor 30 20 [⟨"Speaker".toList, []⟩] none

/-- Reflow consistency of a state: the display table matches the entries
at the session width and the cursor is in range. -/
def wf (s : EditorSt) : Prop :=
  s.display_lines = buildDisplayLines s.entries s.content_width ∧
  s.cursor_display_line < s.display_lines.length ∧
  s.cursor_pos ≤ get_current_field_length s

instance (s : EditorSt) : Decidable (wf s) := by
  unfold wf; infer_instance

/-! ## Field-preservation lemmas -/

@[simp] theorem save_undo_state_entries (s : EditorSt) :
    (save_undo_state s).entries = s.entries := rfl

@[simp] theorem save_undo_state_display (s : EditorSt) :
    (save_undo_state s).display_lines = s.display_lines := rfl

@[simp] theorem save_undo_state_cdl (s : EditorSt) :
    (save_undo_state s).cursor_display_line = s.cursor_display_line := rfl

@[simp] theorem save_undo_state_field (s : EditorSt) :
    (save_undo_state s).cursor_field = s.cursor_field := rfl

@[simp] theorem save_undo_state_pos (s : EditorSt) :
    (save_undo_state s).cursor_pos = s.cursor_pos := rfl

@[simp] theorem save_undo_state_scroll (s : EditorSt) :
    (save_undo_state s).scroll_offset = s.scroll_offset := rfl

@[simp] theorem save_undo_state_kc (s : EditorSt) :
    (save_undo_state s).keystroke_count = s.keystroke_count := rfl

@[simp] theorem save_undo_state_aw (s : EditorSt) :
    (save_undo_state s).autosave_writes = s.autosave_writes := rfl

@[simp] theorem save_undo_state_cw (s : EditorSt) :
    (save_undo_state s).content_width = s.content_width := rfl

theorem save_undo_state_stack (s : EditorSt) :
    (save_undo_state s).undo_stack = pushCap s.undo_stack (snapOf s) := rfl

@[simp] theorem snapOf_save_undo_state (s : EditorSt) :
    snapOf (save_undo_state s) = snapOf s := rfl

@[simp] theorem curLine_save_undo_state (s : EditorSt) :
    curLine (save_undo_state s) = curLine s := rfl

@[simp] theorem reflow_entries (s : EditorSt) :
    (reflow s).entries = s.entries := by
  simp only [reflow]; (repeat' split) <;> rfl

@[simp] theorem reflow_stack (s : EditorSt) :
    (reflow s).undo_stack = s.undo_stack := by
  simp only [reflow]; (repeat' split) <;> rfl

@[simp] theorem reflow_kc (s : EditorSt) :
    (reflow s).keystroke_count = s.keystroke_count := by
  simp only [reflow]; (repeat' split) <;> rfl

@[simp] theorem reflow_aw (s : EditorSt) :
    (reflow s).autosave_writes = s.autosave_writes := by
  simp only [reflow]; (repeat' split) <;> rfl

@[simp] theorem reflow_scroll (s : EditorSt) :
    (reflow s).scroll_offset = s.scroll_offset := by
  simp only [reflow]; (repeat' split) <;> rfl

@[simp] theorem reflow_field (s : EditorSt) :
    (reflow s).cursor_field = s.cursor_field := by
  simp only [reflow]; (repeat' split) <;> rfl

@[simp] theorem reflow_status (s : EditorSt) :
    (reflow s).status_msg = s.status_msg := by
  simp only [reflow]; (repeat' split) <;> rfl

@[simp] theorem set_cursor_stack (s : EditorSt) (ei target : Nat) :
    (set_cursor_for_content s ei target).undo_stack = s.undo_stack := by
  simp only [set_cursor_for_content]; (repeat' split) <;> rfl

@[simp] theorem set_cursor_kc (s : EditorSt) (ei target : Nat) :
    (set_cursor_for_content s ei target).keystroke_count = s.keystroke_count := by
  simp only [set_cursor_for_content]; (repeat' split) <;> rfl

@[simp] theorem set_cursor_aw (s : EditorSt) (ei target : Nat) :
    (set_cursor_for_content s ei target).autosave_writes = s.autosave_writes := by
  simp only [set_cursor_for_content]; (repeat' split) <;> rfl

@[simp] theorem backspace_delete_stack (s : EditorSt) (ei ao : Nat) :
    (backspace_delete s ei ao).undo_stack = s.undo_stack := by
  simp only [backspace_delete]; (repeat' split) <;> simp

@[simp] theorem backspace_delete_kc (s : EditorSt) (ei ao : Nat) :
    (backspace_delete s ei ao).keystroke_count = s.keystroke_count := by
  simp only [backspace_delete]; (repeat' split) <;> simp

@[simp] theorem backspace_delete_aw (s : EditorSt) (ei ao : Nat) :
    (backspace_delete s ei ao).autosave_writes = s.autosave_writes := by
  simp only [backspace_delete]; (repeat' split) <;> simp

@[simp] theorem backspace_content_stack (s : EditorSt) (ei off ao : Nat) :
    (backspace_content s ei off ao).undo_stack = s.undo_stack := by
  simp only [backspace_content]; (repeat' split) <;> simp

@[simp] theorem backspace_content_kc (s : EditorSt) (ei off ao : Nat) :
    (backspace_content s ei off ao).keystroke_count = s.keystroke_count := by
  simp only [backspace_content]; (repeat' split) <;> simp

@[simp] theorem backspace_content_aw (s : EditorSt) (ei off ao : Nat) :
    (backspace_content s ei off ao).autosave_writes = s.autosave_writes := by
  simp only [backspace_content]; (repeat' split) <;> simp

theorem handle_insert_kc (s : EditorSt) (c : Char) :
    (handle_insert s c).keystroke_count = s.keystroke_count := by
  simp only [handle_insert]; (repeat' split) <;> simp

theorem handle_insert_aw (s : EditorSt) (c : Char) :
    (handle_insert s c).autosave_writes = s.autosave_writes := by
  simp only [handle_insert]; (repeat' split) <;> simp

theorem handle_backspace_stack (s : EditorSt) :
    (handle_backspace s).undo_stack = pushCap s.undo_stack (snapOf s) := by
  simp only [handle_backspace]; (repeat' split) <;>
    simp [save_undo_state_stack]

theorem handle_backspace_kc (s : EditorSt) :
    (handle_backspace s).keystroke_count = s.keystroke_count := by
  simp only [handle_backspace]; (repeat' split) <;> simp

theorem handle_backspace_aw (s : EditorSt) :
    (handle_backspace s).autosave_writes = s.autosave_writes := by
  simp only [handle_backspace]; (repeat' split) <;> simp

@[simp] theorem move_split_at_stack (s : EditorSt) (ei0 off : Nat) :
    (move_split_at s ei0 off).undo_stack = s.undo_stack := rfl

@[simp] theorem move_split_at_kc (s : EditorSt) (ei0 off : Nat) :
    (move_split_at s ei0 off).keystroke_count = s.keystroke_count := rfl

@[simp] theorem move_split_at_aw (s : EditorSt) (ei0 off : Nat) :
    (move_split_at s ei0 off).autosave_writes = s.autosave_writes := rfl

@[simp] theorem move_swap_up_stack (s : EditorSt) (ei : Nat) :
    (move_swap_up s ei).undo_stack = s.undo_stack := by
  simp only [move_swap_up]; (repeat' split) <;> simp

@[simp] theorem move_swap_up_kc (s : EditorSt) (ei : Nat) :
    (move_swap_up s ei).keystroke_count = s.keystroke_count := by
  simp only [move_swap_up]; (repeat' split) <;> simp

@[simp] theorem move_swap_up_aw (s : EditorSt) (ei : Nat) :
    (move_swap_up s ei).autosave_writes = s.autosave_writes := by
  simp only [move_swap_up]; (repeat' split) <;> simp

@[simp] theorem move_down_split_stack (s : EditorSt) (ei0 off : Nat) :
    (move_down_split s ei0 off).undo_stack = s.undo_stack := by
  simp only [move_down_split]; (repeat' split) <;> simp

@[simp] theorem move_down_split_kc (s : EditorSt) (ei0 off : Nat) :
    (move_down_split s ei0 off).keystroke_count = s.keystroke_count := by
  simp only [move_down_split]; (repeat' split) <;> simp

@[simp] theorem move_down_split_aw (s : EditorSt) (ei0 off : Nat) :
    (move_down_split s ei0 off).autosave_writes = s.autosave_writes := by
  simp only [move_down_split]; (repeat' split) <;> simp

@[simp] theorem move_swap_down_stack (s : EditorSt) (ei : Nat) :
    (move_swap_down s ei).undo_stack = s.undo_stack := by
  simp only [move_swap_down]; (repeat' split) <;> simp

@[simp] theorem move_swap_down_kc (s : EditorSt) (ei : Nat) :
    (move_swap_down s ei).keystroke_count = s.keystroke_count := by
  simp only [move_swap_down]; (repeat' split) <;> simp

@[simp] theorem move_swap_down_aw (s : EditorSt) (ei : Nat) :
    (move_swap_down s ei).autosave_writes = s.autosave_writes := by
  simp only [move_swap_down]; (repeat' split) <;> simp

theorem move_entry_up_stack (s : EditorSt) :
    (move_entry_up s).undo_stack = pushCap s.undo_stack (snapOf s) := by
  simp only [move_entry_up]; (repeat' split) <;>
    simp [save_undo_state_stack]

theorem move_entry_up_kc (s : EditorSt) :
    (move_entry_up s).keystroke_count = s.keystroke_count := by
  simp only [move_entry_up]; (repeat' split) <;> simp

theorem move_entry_up_aw (s : EditorSt) :
    (move_entry_up s).autosave_writes = s.autosave_writes := by
  simp only [move_entry_up]; (repeat' split) <;> simp

theorem move_entry_down_stack (s : EditorSt) :
    (move_entry_down s).undo_stack = pushCap s.undo_stack (snapOf s) := by
  simp only [move_entry_down]; (repeat' split) <;>
    simp [save_undo_state_stack]

theorem move_entry_down_kc (s : EditorSt) :
    (move_entry_down s).keystroke_count = s.keystroke_count := by
  simp only [move_entry_down]; (repeat' split) <;> simp

theorem move_entry_down_aw (s : EditorSt) :
    (move_entry_down s).autosave_writes = s.autosave_writes := by
  simp only [move_entry_down]; (repeat' split) <;> simp

theorem split_line_kc (s : EditorSt) :
    (split_line_at_cursor s).keystroke_count = s.keystroke_count := by
  simp only [split_line_at_cursor]; (repeat' split) <;> simp

theorem split_line_aw (s : EditorSt) :
    (split_line_at_cursor s).autosave_writes = s.autosave_writes := by
  simp only [split_line_at_cursor]; (repeat' split) <;> simp

theorem undo_kc (s : EditorSt) :
    (undo s).keystroke_count = s.keystroke_count := by
  simp only [undo]; (repeat' split) <;> simp

theorem undo_aw (s : EditorSt) :
    (undo s).autosave_writes = s.autosave_writes := by
  simp only [undo]; (repeat' split) <;> simp

theorem save_file_kc (s : EditorSt) :
    (save_file s).keystroke_count = s.keystroke_count := by
  simp only [save_file]; (repeat' split) <;> rfl

theorem save_file_aw (s : EditorSt) :
    (save_file s).autosave_writes = s.autosave_writes := by
  simp only [save_file]; (repeat' split) <;> rfl

@[simp] theorem key_control_reject_kc (s : EditorSt) (k : Nat) :
    (key_control_reject s k).keystroke_count = s.keystroke_count := rfl

@[simp] theorem key_control_reject_aw (s : EditorSt) (k : Nat) :
    (key_control_reject s k).autosave_writes = s.autosave_writes := rfl

@[simp] theorem key_clear_speaker_kc (s : EditorSt) :
    (key_clear_speaker s).keystroke_count = s.keystroke_count := by
  simp [key_clear_speaker]

@[simp] theorem key_clear_speaker_aw (s : EditorSt) :
    (key_clear_speaker s).autosave_writes = s.autosave_writes := by
  simp [key_clear_speaker]

@[simp] theorem key_tab_kc (s : EditorSt) :
    (key_tab s).keystroke_count = s.keystroke_count := rfl

@[simp] theorem key_tab_aw (s : EditorSt) :
    (key_tab s).autosave_writes = s.autosave_writes := rfl

@[simp] theorem key_enter_kc (s : EditorSt) :
    (key_enter s).keystroke_count = s.keystroke_count := by
  simp only [key_enter]; split <;> simp [split_line_kc]

@[simp] theorem key_enter_aw (s : EditorSt) :
    (key_enter s).autosave_writes = s.autosave_writes := by
  simp only [key_enter]; split <;> simp [split_line_aw]

@[simp] theorem key_up_nav_kc (s : EditorSt) :
    (key_up_nav s).keystroke_count = s.keystroke_count := by
  simp only [key_up_nav]; (repeat' split) <;> rfl

@[simp] theorem key_up_nav_aw (s : EditorSt) :
    (key_up_nav s).autosave_writes = s.autosave_writes := by
  simp only [key_up_nav]; (repeat' split) <;> rfl

@[simp] theorem key_down_nav_kc (s : EditorSt) :
    (key_down_nav s).keystroke_count = s.keystroke_count := by
  simp only [key_down_nav]; (repeat' split) <;> rfl

@[simp] theorem key_down_nav_aw (s : EditorSt) :
    (key_down_nav s).autosave_writes = s.autosave_writes := by
  simp only [key_down_nav]; (repeat' split) <;> rfl

@[simp] theorem key_left_nav_kc (s : EditorSt) :
    (key_left_nav s).keystroke_count = s.keystroke_count := by
  simp only [key_left_nav]; (repeat' split) <;> rfl

@[simp] theorem key_left_nav_aw (s : EditorSt) :
    (key_left_nav s).autosave_writes = s.autosave_writes := by
  simp only [key_left_nav]; (repeat' split) <;> rfl

@[simp] theorem key_right_nav_kc (s : EditorSt) :
    (key_right_nav s).keystroke_count = s.keystroke_count := by
  simp only [key_right_nav]; (repeat' split) <;> rfl

@[simp] theorem key_right_nav_aw (s : EditorSt) :
    (key_right_nav s).autosave_writes = s.autosave_writes := by
  simp only [key_right_nav]; (repeat' split) <;> rfl

/-- No dispatched key handler touches the keystroke counter or writes to
the swap file; only the counter prologue's autosave does. -/
theorem dispatch_kc_aw (s : EditorSt) (k : Nat) :
    (dispatchKey s k).1.keystroke_count = s.keystroke_count ∧
    (dispatchKey s k).1.autosave_writes = s.autosave_writes := by
  simp only [dispatchKey]
  by_cases h1 : k < 32 ∧ ¬k = 9 ∧ ¬k = 10
  · rw [if_pos h1]; exact ⟨rfl, rfl⟩
  rw [if_neg h1]
  by_cases h2 : k = 28
  · rw [if_pos h2]; exact ⟨rfl, rfl⟩
  rw [if_neg h2]
  by_cases h3 : k = 92 ∧ s.cursor_field = Field.speaker
  · rw [if_pos h3]; exact ⟨key_clear_speaker_kc s, key_clear_speaker_aw s⟩
  rw [if_neg h3]
  by_cases h4 : k = 96
  · rw [if_pos h4]; exact ⟨save_file_kc s, save_file_aw s⟩
  rw [if_neg h4]
  by_cases h5 : k = 126
  · rw [if_pos h5]; exact ⟨rfl, rfl⟩
  rw [if_neg h5]
  by_cases h6 : k = KEY_DC
  · rw [if_pos h6]; exact ⟨undo_kc s, undo_aw s⟩
  rw [if_neg h6]
  by_cases h7 : k = KEY_HOME
  · rw [if_pos h7]; exact ⟨rfl, rfl⟩
  rw [if_neg h7]
  by_cases h8 : k = KEY_END ∧ s.cursor_field = Field.content
  · rw [if_pos h8]; exact ⟨rfl, rfl⟩
  rw [if_neg h8]
  by_cases h9 : k = KEY_PPAGE
  · rw [if_pos h9]; exact ⟨move_entry_up_kc s, move_entry_up_aw s⟩
  rw [if_neg h9]
  by_cases h10 : k = KEY_NPAGE
  · rw [if_pos h10]; exact ⟨move_entry_down_kc s, move_entry_down_aw s⟩
  rw [if_neg h10]
  by_cases h11 : k = 9
  · rw [if_pos h11]; exact ⟨rfl, rfl⟩
  rw [if_neg h11]
  by_cases h12 : k = 19
  · rw [if_pos h12]; exact ⟨save_file_kc s, save_file_aw s⟩
  rw [if_neg h12]
  by_cases h13 : k = 17
  · rw [if_pos h13]; exact ⟨rfl, rfl⟩
  rw [if_neg h13]
  by_cases h14 : k = 10 ∨ k = KEY_ENTER
  · rw [if_pos h14]; exact ⟨key_enter_kc s, key_enter_aw s⟩
  rw [if_neg h14]
  by_cases h15 : k = KEY_UP
  · rw [if_pos h15]; exact ⟨key_up_nav_kc s, key_up_nav_aw s⟩
  rw [if_neg h15]
  by_cases h16 : k = KEY_DOWN
  · rw [if_pos h16]; exact ⟨key_down_nav_kc s, key_down_nav_aw s⟩
  rw [if_neg h16]
  by_cases h17 : k = KEY_LEFT
  · rw [if_pos h17]; exact ⟨key_left_nav_kc s, key_left_nav_aw s⟩
  rw [if_neg h17]
  by_cases h18 : k = KEY_RIGHT
  · rw [if_pos h18]; exact ⟨key_right_nav_kc s, key_right_nav_aw s⟩
  rw [if_neg h18]
  by_cases h19 : k = KEY_BACKSPACE ∨ k = 127
  · rw [if_pos h19]; exact ⟨handle_backspace_kc s, handle_backspace_aw s⟩
  rw [if_neg h19]
  by_cases h20 : 32 ≤ k ∧ k ≤ 126 ∧ ¬k = 92 ∧ ¬k = 96 ∧ ¬k = 126
  · rw [if_pos h20]; exact ⟨handle_insert_kc s _, handle_insert_aw s _⟩
  rw [if_neg h20]
  exact ⟨rfl, rfl⟩

@[simp] theorem move_swap_up_status (s : EditorSt) (ei : Nat) :
    (move_swap_up s ei).status_msg = "Moved entry up".toList := by
  simp only [move_swap_up]

@[simp] theorem move_swap_down_status (s : EditorSt) (ei : Nat) :
    (move_swap_down s ei).status_msg = "Moved entry down".toList := by
  simp only [move_swap_down]

/-! ## Claim theorems: autosave cadence, unconditional undo push,
refusals and mutation -/

/-- C8 (amended: the counter counts every processed key event of any
kind — including rejected control keys and pure navigation — not only
accepted edit-affecting ones): starting below the interval, processing a
key fires an autosave exactly when the counter reaches 10, performing
exactly one swap-file write and resetting the counter to 0; otherwise it
performs no write and increments the counter. -/
theorem autosave_every_ten_keys (s : EditorSt) (k : Nat)
    (h : s.keystroke_count < 10) :
    ((process_key s k).1.keystroke_count =
      if s.keystroke_count = 9 then 0 else s.keystroke_count + 1) ∧
    ((process_key s k).1.autosave_writes.length =
      if s.keystroke_count = 9 then s.autosave_writes.length + 1
      else s.autosave_writes.length) := by
  obtain ⟨hkc, haw⟩ := dispatch_kc_aw (counterStep s) k
  unfold process_key
  rw [hkc, haw]
  by_cases h9 : s.keystroke_count = 9
  · simp [counterStep, autosave, autosave_interval, h9]
  · have hlt : ¬ autosave_interval ≤ s.keystroke_count + 1 := by
      unfold autosave_interval; omega
    simp [counterStep, hlt, h9]

/-- A state whose counter is one short of the autosave interval. -/
def countNine : EditorSt := { initState with keystroke_count := 9 }

/-- Witness for C8: the tenth key fires one autosave and resets. -/
theorem autosave_every_ten_keys_witness :
    ((process_key countNine 97).1.keystroke_count =
      if countNine.keystroke_count = 9 then 0 else countNine.keystroke_count + 1) ∧
    ((process_key countNine 97).1.autosave_writes.length =
      if countNine.keystroke_count = 9 then countNine.autosave_writes.length + 1
      else countNine.autosave_writes.length) :=
  autosave_every_ten_keys countNine 97 (by decide)

/-- C8 counterexample: ASCII 1 is rejected with a diagnostic and never
reaches the edit operations, yet as the tenth processed key it still
triggers an autosave write. -/
theorem autosave_rejected_key_cex :
    (process_key countNine 1).1.autosave_writes.length = 1 ∧
    (process_key countNine 1).1.status_msg =
      "Control key pressed: ASCII 1".toList := by
  constructor
  · rfl
  · decide

/-- C10: `handle_backspace`, `move_entry_up` and `move_entry_down` push
an undo snapshot unconditionally on entry, before any precondition is
checked; invocations that mutate nothing (a no-op backspace in the
speaker field at column 0, or a move refused at the respective boundary)
still push exactly one snapshot of the pre-invocation state. -/
theorem unconditional_undo_push (s : EditorSt) :
    ((handle_backspace s).undo_stack = pushCap s.undo_stack (snapOf s) ∧
     (move_entry_up s).undo_stack = pushCap s.undo_stack (snapOf s) ∧
     (move_entry_down s).undo_stack = pushCap s.undo_stack (snapOf s)) ∧
    (s.cursor_field = Field.speaker → s.cursor_pos = 0 →
      (handle_backspace s).entries = s.entries) ∧
    ((curLine s).2.1 = 0 → (curLine s).1 = 0 →
      (move_entry_up s).entries = s.entries ∧
      (move_entry_up s).status_msg = "Already at the top".toList) ∧
    ((curLine s).2.1 = 0 → (curLine s).1 = s.entries.length - 1 →
      (move_entry_down s).entries = s.entries ∧
      (move_entry_down s).status_msg = "Already at the bottom".toList) := by
  refine ⟨⟨handle_backspace_stack s, move_entry_up_stack s,
    move_entry_down_stack s⟩, ?_, ?_, ?_⟩
  · intro hf hp
    simp [handle_backspace, hf, hp]
  · intro hoff hei
    simp [move_entry_up, hoff, hei]
  · intro hoff hei
    simp [move_entry_down, hoff, hei]

/-- Witness for C10 on a state whose cursor sits at the speaker field of
the single record's first line. -/
theorem unconditional_undo_push_witness :
    (handle_backspace { initState with cursor_field := Field.speaker }).undo_stack =
      pushCap { initState with cursor_field := Field.speaker }.undo_stack
        (snapOf { initState with cursor_field := Field.speaker }) ∧
    (handle_backspace { initState with cursor_field := Field.speaker }).entries =
      { initState with cursor_field := Field.speaker }.entries ∧
    (move_entry_up { initState with cursor_field := Field.speaker }).entries =
      { initState with cursor_field := Field.speaker }.entries ∧
    (move_entry_down { initState with cursor_field := Field.speaker }).entries =
      { initState with cursor_field := Field.speaker }.entries := by
  obtain ⟨⟨hb, _, _⟩, h2, h3, h4⟩ :=
    unconditional_undo_push { initState with cursor_field := Field.speaker }
  exact ⟨hb, h2 rfl (by decide), (h3 (by decide) (by decide)).1,
    (h4 (by decide) (by decide)).1⟩

/-- C4 (amended: except `MoveEntry(down)` invoked on a continuation
segment of the last record, which first splits the record and then
refuses): a move that refuses with a boundary status leaves the record
list unmutated — unconditionally for `move_entry_up`, and for
`move_entry_down` whenever the cursor is not on a continuation segment. -/
theorem move_refusal_no_mutation (s : EditorSt) :
    ((move_entry_up s).status_msg = "Already at the top".toList →
      (move_entry_up s).entries = s.entries) ∧
    ((curLine s).2.1 = 0 →
      (move_entry_down s).status_msg = "Already at the bottom".toList →
      (move_entry_down s).entries = s.entries) := by
  constructor
  · intro hst
    by_cases hoff : 0 < (curLine s).2.1
    · exfalso
      have hmu : (move_entry_up s).status_msg = "Moved entry up".toList := by
        simp [move_entry_up, hoff]
      rw [hmu] at hst
      exact absurd hst (by decide)
    · have hoff0 : (curLine s).2.1 = 0 := by omega
      by_cases hei : (curLine s).1 = 0
      · simp [move_entry_up, hoff0, hei]
      · exfalso
        have hmu : (move_entry_up s).status_msg = "Moved entry up".toList := by
          simp [move_entry_up, hoff0, hei]
        rw [hmu] at hst
        exact absurd hst (by decide)
  · intro hoff0 hst
    by_cases hei : s.entries.length - 1 ≤ (curLine s).1
    · simp [move_entry_down, hoff0, hei]
    · exfalso
      have hmd : (move_entry_down s).status_msg = "Moved entry down".toList := by
        simp [move_entry_down, hoff0, hei]
      rw [hmd] at hst
      exact absurd hst (by decide)

/-- Witness for C4 at the initial single-record state, where both moves
refuse at their boundaries. -/
theorem move_refusal_no_mutation_witness :
    (move_entry_up initState).entries = initState.entries ∧
    (move_entry_down initState).entries = initState.entries := by
  obtain ⟨h1, h2⟩ := move_refusal_no_mutation initState
  exact ⟨h1 (by decide), h2 (by decide) (by decide)⟩

/-- A single record `("A", "abcdef")` wrapped at width 5 into two display
lines, with the cursor on the continuation line. -/
def wrappedTailState : EditorSt :=
  let entries : List Entry := [⟨"A".toList, "abcdef".toList⟩]
  { entries := entries
    display_lines := buildDisplayLines entries 5
    cursor_display_line := 1
    cursor_field := Field.content
    cursor_pos := 0
    status_msg := []
    scroll_offset := 0
    keystroke_count := 0
    undo_stack := []
    content_width := 5
    max_visible := 20
    filename := none
    autosave_writes := []
    file_writes := [] }

/-- C4 counterexample: `move_entry_down` on the continuation line of the
last record splits the record (mutating the store) and then refuses with
a status. -/
theorem move_down_splits_then_refuses_cex :
    (move_entry_down wrappedTailState).status_msg =
      "Already at the bottom".toList ∧
    (move_entry_down wrappedTailState).entries ≠ wrappedTailState.entries := by
  constructor
  · decide
  · decide

/-! ## The undo machinery -/

theorem get_current_field_length_congr (a b : EditorSt)
    (h1 : a.display_lines = b.display_lines)
    (h2 : a.cursor_display_line = b.cursor_display_line)
    (h3 : a.cursor_field = b.cursor_field)
    (h4 : a.entries = b.entries) :
    get_current_field_length a = get_current_field_length b := by
  unfold get_current_field_length curLine dlAt entryAt
  rw [h1, h2, h3, h4]

/-- Reflow is the identity on a reflow-consistent state. -/
theorem reflow_of_wf (s : EditorSt) (hw : wf s) : reflow s = s := by
  obtain ⟨h1, h2, h3⟩ := hw
  unfold reflow
  rw [← h1]
  dsimp only
  rw [if_neg (show ¬ s.display_lines.length ≤ s.cursor_display_line by omega)]
  split
  case isTrue h =>
    exfalso
    have h' : get_current_field_length s < s.cursor_pos := h
    omega
  case isFalse _ => rfl

/-- Reflow does not move the cursor when the rebuilt display keeps it in
range. -/
theorem reflow_no_clamp (s : EditorSt)
    (h2 : s.cursor_display_line <
      (buildDisplayLines s.entries s.content_width).length)
    (h3 : s.cursor_pos ≤ get_current_field_length
      { s with display_lines := buildDisplayLines s.entries s.content_width }) :
    (reflow s).cursor_display_line = s.cursor_display_line ∧
    (reflow s).cursor_pos = s.cursor_pos := by
  unfold reflow
  dsimp only
  rw [if_neg (show ¬ (buildDisplayLines s.entries s.content_width).length ≤
    s.cursor_display_line by omega)]
  split
  case isTrue h =>
    exfalso
    have h' : get_current_field_length
        { s with display_lines := buildDisplayLines s.entries s.content_width } <
        s.cursor_pos := h
    omega
  case isFalse _ => exact ⟨rfl, rfl⟩

theorem pushCap_small (stack : List Snapshot) (x : Snapshot)
    (h : stack.length ≤ 99) : pushCap stack x = stack ++ [x] := by
  unfold pushCap
  rw [if_neg (by omega)]

theorem dropLast_append_one {α : Type} (l : List α) (x : α) :
    (l ++ [x]).dropLast = l := by simp

theorem getLastD_append_one {α : Type} (l : List α) (x d : α) :
    (l ++ [x]).getLastD d = x := by
  rw [List.getLastD_eq_getLast?]
  simp

/-- If the second-from-top snapshot of `t`'s stack is a snapshot of `s`,
the widths agree and `s` is reflow-consistent, then `undo t` pops once
and restores `s`'s records, cursor and viewport. -/
theorem undo_restores (t s : EditorSt)
    (hlen2 : 2 ≤ t.undo_stack.length)
    (hsnap : t.undo_stack.dropLast.getLastD ⟨[], 0, Field.content, 0, 0⟩ =
      snapOf s)
    (hwidth : t.content_width = s.content_width)
    (hwf : wf s) :
    (undo t).entries = s.entries ∧
    (undo t).cursor_display_line = s.cursor_display_line ∧
    (undo t).cursor_field = s.cursor_field ∧
    (undo t).cursor_pos = s.cursor_pos ∧
    (undo t).scroll_offset = s.scroll_offset ∧
    (undo t).undo_stack = t.undo_stack.dropLast := by
  obtain ⟨hw1, hw2, hw3⟩ := hwf
  unfold undo
  rw [if_neg (by omega)]
  dsimp only
  rw [hsnap]
  dsimp only [snapOf]
  have hbuild :
      buildDisplayLines s.entries t.content_width = s.display_lines := by
    rw [hwidth, ← hw1]
  constructor
  · rw [reflow_entries]
  refine ⟨?_, ?_, ?_, ?_, ?_⟩
  · exact (reflow_no_clamp _ (by dsimp only; rw [hbuild]; exact hw2)
      (by dsimp only; rw [hbuild]; exact hw3)).1
  · rw [reflow_field]
  · exact (reflow_no_clamp _ (by dsimp only; rw [hbuild]; exact hw2)
      (by dsimp only; rw [hbuild]; exact hw3)).2
  · rw [reflow_scroll]
  · rw [reflow_stack]

/-- C2 (amended: a single undo() call after two consecutively completed
push/mutate pairs restores records, cursor, and viewport to their values
immediately before the FIRST of the two operations — one operation
earlier than the claim states — because undo discards the most recent
pre-operation snapshot and restores the one beneath it). -/
theorem undo_after_two_ops (s : EditorSt) (m₁ m₂ : EditorSt → EditorSt)
    (hwf : wf s) (hlen : s.undo_stack.length ≤ 98)
    (hm₁ : ∀ u, (m₁ u).undo_stack = u.undo_stack ∧
      (m₁ u).content_width = u.content_width)
    (hm₂ : ∀ u, (m₂ u).undo_stack = u.undo_stack ∧
      (m₂ u).content_width = u.content_width) :
    (undo (m₂ (save_undo_state (m₁ (save_undo_state s))))).entries =
      s.entries ∧
    (undo (m₂ (save_undo_state (m₁ (save_undo_state s))))).cursor_display_line =
      s.cursor_display_line ∧
    (undo (m₂ (save_undo_state (m₁ (save_undo_state s))))).cursor_field =
      s.cursor_field ∧
    (undo (m₂ (save_undo_state (m₁ (save_undo_state s))))).cursor_pos =
      s.cursor_pos ∧
    (undo (m₂ (save_undo_state (m₁ (save_undo_state s))))).scroll_offset =
      s.scroll_offset := by
  set t := m₂ (save_undo_state (m₁ (save_undo_state s))) with ht
  have hstack : t.undo_stack =
      (s.undo_stack ++ [snapOf s]) ++ [snapOf (m₁ (save_undo_state s))] := by
    rw [ht, (hm₂ _).1, save_undo_state_stack, (hm₁ _).1,
      save_undo_state_stack,
      pushCap_small s.undo_stack (snapOf s) (by omega)]
    rw [pushCap_small _ _ (by simp; omega)]
  have hwidth : t.content_width = s.content_width := by
    rw [ht, (hm₂ _).2, save_undo_state_cw, (hm₁ _).2, save_undo_state_cw]
  have hlen2 : 2 ≤ t.undo_stack.length := by
    rw [hstack]; simp
  have hsnap : t.undo_stack.dropLast.getLastD ⟨[], 0, Field.content, 0, 0⟩ =
      snapOf s := by
    rw [hstack, dropLast_append_one, getLastD_append_one]
  obtain ⟨e1, e2, e3, e4, e5, _⟩ := undo_restores t s hlen2 hsnap hwidth hwf
  exact ⟨e1, e2, e3, e4, e5⟩

/-- Witness for C2 at the initial state with two identity mutations. -/
theorem undo_after_two_ops_witness :
    (undo (id (save_undo_state (id (save_undo_state initState))))).entries =
      initState.entries ∧
    (undo (id (save_undo_state (id (save_undo_state initState))))).cursor_display_line =
      initState.cursor_display_line ∧
    (undo (id (save_undo_state (id (save_undo_state initState))))).cursor_field =
      initState.cursor_field ∧
    (undo (id (save_undo_state (id (save_undo_state initState))))).cursor_pos =
      initState.cursor_pos ∧
    (undo (id (save_undo_state (id (save_undo_state initState))))).scroll_offset =
      initState.scroll_offset :=
  undo_after_two_ops initState id id (by decide) (by decide)
    (fun _ => ⟨rfl, rfl⟩) (fun _ => ⟨rfl, rfl⟩)

/-- The session states after inserting 'a', then 'b', then pressing the
undo key. -/
def s_after_a : EditorSt := (process_key initState 97).1

def s_after_ab : EditorSt := (process_key s_after_a 98).1

def s_after_undo : EditorSt := (process_key s_after_ab 330).1

/-- C2 counterexample: after the two completed insertions 'a' and 'b',
one undo restores the initial empty record — the state two operations
back — not the state immediately before the second insertion. -/
theorem undo_skips_most_recent_op_cex :
    s_after_a.entries = [⟨"Speaker".toList, ['a']⟩] ∧
    s_after_undo.entries = initState.entries ∧
    s_after_undo.entries ≠ s_after_a.entries := by
  refine ⟨by decide, by decide, by decide⟩

/-- C9 (amended: starting from any reflow-consistent state whose undo
stack top is a snapshot of the current state — as at session start or
right after an undo — one mutating operation followed by undo() restores
records, cursor, and viewport; the stack never drops below size 1, and an
undo at size 1 reports "Nothing to undo" and changes nothing else). -/
theorem undo_one_op_from_quiescent (s : EditorSt) (m : EditorSt → EditorSt)
    (hwf : wf s) (hq : s.undo_stack.getLast? = some (snapOf s))
    (hlen : s.undo_stack.length ≤ 99)
    (hm : ∀ u, (m u).undo_stack = u.undo_stack ∧
      (m u).content_width = u.content_width) :
    ((undo (m (save_undo_state s))).entries = s.entries ∧
     (undo (m (save_undo_state s))).cursor_display_line = s.cursor_display_line ∧
     (undo (m (save_undo_state s))).cursor_field = s.cursor_field ∧
     (undo (m (save_undo_state s))).cursor_pos = s.cursor_pos ∧
     (undo (m (save_undo_state s))).scroll_offset = s.scroll_offset) ∧
    1 ≤ (undo (m (save_undo_state s))).undo_stack.length ∧
    (∀ u : EditorSt, u.undo_stack.length ≤ 1 →
      (undo u).entries = u.entries ∧
      (undo u).cursor_display_line = u.cursor_display_line ∧
      (undo u).cursor_pos = u.cursor_pos ∧
      (undo u).scroll_offset = u.scroll_offset ∧
      (undo u).undo_stack = u.undo_stack ∧
      (undo u).status_msg = "Nothing to undo".toList) := by
  have hne : s.undo_stack ≠ [] := by
    intro h; rw [h] at hq; exact absurd hq (by simp)
  have hlen1 : 1 ≤ s.undo_stack.length :=
    Nat.succ_le_of_lt (List.length_pos.mpr hne)
  set t := m (save_undo_state s) with ht
  have hstack : t.undo_stack = s.undo_stack ++ [snapOf s] := by
    rw [ht, (hm _).1, save_undo_state_stack, pushCap_small _ _ hlen]
  have hwidth : t.content_width = s.content_width := by
    rw [ht, (hm _).2, save_undo_state_cw]
  have hlen2 : 2 ≤ t.undo_stack.length := by
    rw [hstack]; simp; omega
  have hsnap : t.undo_stack.dropLast.getLastD ⟨[], 0, Field.content, 0, 0⟩ =
      snapOf s := by
    rw [hstack, dropLast_append_one, List.getLastD_eq_getLast?, hq]
    rfl
  obtain ⟨e1, e2, e3, e4, e5, e6⟩ := undo_restores t s hlen2 hsnap hwidth hwf
  refine ⟨⟨e1, e2, e3, e4, e5⟩, ?_, ?_⟩
  · rw [e6, hstack, dropLast_append_one]
    omega
  · intro u hu
    unfold undo
    rw [if_pos hu]
    exact ⟨rfl, rfl, rfl, rfl, rfl, rfl⟩

/-- Witness for C9 at the initial state (whose stack top is its own
snapshot) with an identity mutation. -/
theorem undo_one_op_from_quiescent_witness :
    ((undo (id (save_undo_state initState))).entries = initState.entries ∧
     (undo (id (save_undo_state initState))).cursor_display_line =
       initState.cursor_display_line ∧
     (undo (id (save_undo_state initState))).cursor_field =
       initState.cursor_field ∧
     (undo (id (save_undo_state initState))).cursor_pos = initState.cursor_pos ∧
     (undo (id (save_undo_state initState))).scroll_offset =
       initState.scroll_offset) ∧
    1 ≤ (undo (id (save_undo_state initState))).undo_stack.length ∧
    (∀ u : EditorSt, u.undo_stack.length ≤ 1 →
      (undo u).entries = u.entries ∧
      (undo u).cursor_display_line = u.cursor_display_line ∧
      (undo u).cursor_pos = u.cursor_pos ∧
      (undo u).scroll_offset = u.scroll_offset ∧
      (undo u).undo_stack = u.undo_stack ∧
      (undo u).status_msg = "Nothing to undo".toList) :=
  undo_one_op_from_quiescent initState id (by decide) (by decide) (by decide)
    (fun _ => ⟨rfl, rfl⟩)

/-- C9 counterexample: from the reachable state right after one
insertion, a single further operation followed by undo() does not restore
the pre-operation records — "starting from any state" fails. -/
theorem one_op_undo_any_state_cex :
    (undo (handle_insert s_after_a 'b')).entries ≠ s_after_a.entries := by
  decide

end ConvEd
